import Mathlib

/-!
Shallow embedding of the generation-and-history manager of
`src/sketch-to-sky-ui/src/hooks/useModelGenerator.ts`.

JavaScript runtime values that flow through the hook (history entries read
from `localStorage`, network response bodies, the entries built in
`onSuccess`) are modelled uniformly as `Json` values: `JSON.parse` never
produces anything outside this grammar, and `JSON.stringify`/`JSON.parse`
of the host runtime act as the identity on it (numbers are modelled as
integers; no claim depends on numeric values).  Fallible JavaScript
expressions (property access on `null`) are modelled with `Except`.
-/

namespace SketchToSky

/-- JSON values, the runtime values handled by the hook. -/
inductive Json : Type where
  | null : Json
  | bool : Bool → Json
  | num : Int → Json
  | str : String → Json
  | arr : List Json → Json
  | obj : List (String × Json) → Json

mutual

/-- Decidable equality on `Json`, written out by hand because the derive
handler does not support nested inductives. -/
def Json.decEq : (a b : Json) → Decidable (a = b)
  | .null, .null => .isTrue rfl
  | .null, .bool _ => .isFalse (fun h => nomatch h)
  | .null, .num _ => .isFalse (fun h => nomatch h)
  | .null, .str _ => .isFalse (fun h => nomatch h)
  | .null, .arr _ => .isFalse (fun h => nomatch h)
  | .null, .obj _ => .isFalse (fun h => nomatch h)
  | .bool _, .null => .isFalse (fun h => nomatch h)
  | .bool x, .bool y =>
      if h : x = y then .isTrue (by rw [h])
      else .isFalse (fun hc => by injection hc with h1; exact h h1)
  | .bool _, .num _ => .isFalse (fun h => nomatch h)
  | .bool _, .str _ => .isFalse (fun h => nomatch h)
  | .bool _, .arr _ => .isFalse (fun h => nomatch h)
  | .bool _, .obj _ => .isFalse (fun h => nomatch h)
  | .num _, .null => .isFalse (fun h => nomatch h)
  | .num _, .bool _ => .isFalse (fun h => nomatch h)
  | .num x, .num y =>
      if h : x = y then .isTrue (by rw [h])
      else .isFalse (fun hc => by injection hc with h1; exact h h1)
  | .num _, .str _ => .isFalse (fun h => nomatch h)
  | .num _, .arr _ => .isFalse (fun h => nomatch h)
  | .num _, .obj _ => .isFalse (fun h => nomatch h)
  | .str _, .null => .isFalse (fun h => nomatch h)
  | .str _, .bool _ => .isFalse (fun h => nomatch h)
  | .str _, .num _ => .isFalse (fun h => nomatch h)
  | .str x, .str y =>
      if h : x = y then .isTrue (by rw [h])
      else .isFalse (fun hc => by injection hc with h1; exact h h1)
  | .str _, .arr _ => .isFalse (fun h => nomatch h)
  | .str _, .obj _ => .isFalse (fun h => nomatch h)
  | .arr _, .null => .isFalse (fun h => nomatch h)
  | .arr _, .bool _ => .isFalse (fun h => nomatch h)
  | .arr _, .num _ => .isFalse (fun h => nomatch h)
  | .arr _, .str _ => .isFalse (fun h => nomatch h)
  | .arr xs, .arr ys =>
      match Json.decEqList xs ys with
      | .isTrue h => .isTrue (by rw [h])
      | .isFalse h => .isFalse (fun hc => by injection hc with h1; exact h h1)
  | .arr _, .obj _ => .isFalse (fun h => nomatch h)
  | .obj _, .null => .isFalse (fun h => nomatch h)
  | .obj _, .bool _ => .isFalse (fun h => nomatch h)
  | .obj _, .num _ => .isFalse (fun h => nomatch h)
  | .obj _, .str _ => .isFalse (fun h => nomatch h)
  | .obj _, .arr _ => .isFalse (fun h => nomatch h)
  | .obj fs, .obj gs =>
      match Json.decEqFields fs gs with
      | .isTrue h => .isTrue (by rw [h])
      | .isFalse h => .isFalse (fun hc => by injection hc with h1; exact h h1)

/-- Decidable equality on lists of `Json`. -/
def Json.decEqList : (a b : List Json) → Decidable (a = b)
  | [], [] => .isTrue rfl
  | [], _ :: _ => .isFalse (fun h => nomatch h)
  | _ :: _, [] => .isFalse (fun h => nomatch h)
  | x :: xs, y :: ys =>
      match Json.decEq x y with
      | .isFalse h1 => .isFalse (fun hc => by injection hc with a b; exact h1 a)
      | .isTrue h1 =>
          match Json.decEqList xs ys with
          | .isTrue h2 => .isTrue (by rw [h1, h2])
          | .isFalse h2 => .isFalse (fun hc => by injection hc with a b; exact h2 b)

/-- Decidable equality on `Json` object field lists. -/
def Json.decEqFields : (a b : List (String × Json)) → Decidable (a = b)
  | [], [] => .isTrue rfl
  | [], _ :: _ => .isFalse (fun h => nomatch h)
  | _ :: _, [] => .isFalse (fun h => nomatch h)
  | (k, v) :: xs, (k2, v2) :: ys =>
      if hk : k = k2 then
        match Json.decEq v v2 with
        | .isFalse h1 =>
            .isFalse (fun hc => by
              injection hc with a b; exact h1 (congrArg Prod.snd a))
        | .isTrue h1 =>
            match Json.decEqFields xs ys with
            | .isTrue h2 => .isTrue (by rw [hk, h1, h2])
            | .isFalse h2 =>
                .isFalse (fun hc => by injection hc with a b; exact h2 b)
      else
        .isFalse (fun hc => by
          injection hc with a b; exact hk (congrArg Prod.fst a))

end

instance : DecidableEq Json := Json.decEq

/-- Property access `v[name]` on a JavaScript value that is not `null`:
objects yield the named field (or `undefined`, i.e. `none`), primitives and
arrays yield `undefined`.  (Access on `null` throws and is modelled
separately, at the one place the source performs it unguarded.) -/
def getField (name : String) : Json → Option Json
  | .obj fields => lookupField name fields
  | _ => none
where
  /-- First-match field lookup; parsed JSON objects have unique keys. -/
  lookupField (name : String) : List (String × Json) → Option Json
    | [] => none
    | (k, v) :: rest => if k = name then some v else lookupField name rest

/-- JavaScript truthiness of a defined value. -/
def jsTruthy : Json → Bool
  | .null => false
  | .bool b => b
  | .num n => n != 0
  | .str s => s != ""
  | .arr _ => true
  | .obj _ => true

/-- Outcome of reading the persisted history key, classified exactly by the
branches of `readHistory` in the source: the key is absent (`null`), holds
the empty string (both falsy), holds a string `JSON.parse` rejects, or
holds a string parsing to the value `j`. -/
inductive StoreRead : Type where
  | absent : StoreRead
  | emptyStr : StoreRead
  | unparseable : StoreRead
  | parsed : Json → StoreRead
  deriving DecidableEq

/-- `readHistory` from the source: falsy data → `[]`; parse failure is
caught → `[]`; a parsed non-array → `[]`; a parsed array is returned as-is
(the `as GeneratedModel[]` cast performs no validation). -/
def readHistory : StoreRead → List Json
  | .absent => []
  | .emptyStr => []
  | .unparseable => []
  | .parsed (.arr l) => l
  | .parsed _ => []

/-- The record type of `src/sketch-to-sky-ui/src/types.ts`; `metadata` is an
arbitrary string-keyed object, kept as raw JSON fields. -/
structure GeneratedModel : Type where
  id : String
  prompt : String
  url : String
  thumbnailUrl : Option String
  metadata : Option (List (String × Json))
  createdAt : String
  deriving DecidableEq

/-- The object literal built in `onSuccess` (keys in source order).  Keys
whose value is `undefined` are omitted, matching the value `JSON.stringify`
persists and `JSON.parse` restores. -/
def mkEntry (id prompt : String) (url : Json) (thumb md : Option Json)
    (createdAt : String) : Json :=
  .obj ([("id", .str id), ("prompt", .str prompt), ("url", url)]
    ++ (match thumb with | some t => [("thumbnailUrl", t)] | none => [])
    ++ (match md with | some m => [("metadata", m)] | none => [])
    ++ [("createdAt", .str createdAt)])

/-- The runtime (and hence persisted) value of a `GeneratedModel`. -/
def GeneratedModel.toJson (m : GeneratedModel) : Json :=
  mkEntry m.id m.prompt (.str m.url) (m.thumbnailUrl.map .str)
    (m.metadata.map .obj) m.createdAt

/-- `persistHistory`'s serialization at the value level: `JSON.stringify` of
an array of model records. -/
def encodeHistory (h : List GeneratedModel) : Json :=
  .arr (h.map GeneratedModel.toJson)

/-- Left inverse of `GeneratedModel.toJson`, a proof device used only to
establish injectivity of the serialization (the source itself performs no
per-element decoding — see C10). -/
def decodeEntry : Json → Option GeneratedModel
  | .obj [("id", .str i), ("prompt", .str p), ("url", .str u),
      ("createdAt", .str c)] => some ⟨i, p, u, none, none, c⟩
  | .obj [("id", .str i), ("prompt", .str p), ("url", .str u),
      ("thumbnailUrl", .str t), ("createdAt", .str c)] =>
      some ⟨i, p, u, some t, none, c⟩
  | .obj [("id", .str i), ("prompt", .str p), ("url", .str u),
      ("metadata", .obj md), ("createdAt", .str c)] =>
      some ⟨i, p, u, none, some md, c⟩
  | .obj [("id", .str i), ("prompt", .str p), ("url", .str u),
      ("thumbnailUrl", .str t), ("metadata", .obj md),
      ("createdAt", .str c)] => some ⟨i, p, u, some t, some md, c⟩
  | _ => none

/-- Whitespace as stripped by JavaScript `String.prototype.trim` (the ASCII
part; the claims only exercise these characters). -/
def isJsWs (c : Char) : Bool :=
  c == ' ' || c == '\t' || c == '\n' || c == '\r' || c == '\x0b' || c == '\x0c'

/-- JavaScript `prompt.trim()`: strip leading and trailing whitespace. -/
def jsTrim (s : String) : String :=
  ⟨((s.data.dropWhile isJsWs).reverse.dropWhile isJsWs).reverse⟩

/-- Prepend-then-truncate insertion of `onSuccess`:
`[entry, ...(prev ?? [])].slice(0, 20)`. -/
def insertEntry (entry : Json) (hist : List Json) : List Json :=
  (entry :: hist).take 20

/-- The error values the hook can surface, one per `throw` site in
`mutationFn` plus the axios rejection path. -/
inductive GenError : Type where
  | emptyPrompt : GenError
  | transport : GenError
  | emptyResponse : GenError
  deriving DecidableEq

/-- Continuation of `mutationFn` once the network call settles.  `none`
models an axios rejection (network failure, non-2xx, decode error); `some
data` models a 2xx response with parsed body `data`.  The body's `url`
field is read with optional chaining (`data?.url`) and any falsy value
(absent, `null`, `""`, `0`, `false`) triggers the no-model-URL `throw`;
otherwise the call succeeds with the body's `url`, `thumbnailUrl` and
`metadata` fields (the fields `onSuccess` reads off the result). -/
def resolveOutcome : Option Json →
    Except GenError (Json × Option Json × Option Json)
  | none => .error .transport
  | some data =>
      match getField "url" data with
      | none => .error .emptyResponse
      | some u =>
          if jsTruthy u then
            .ok (u, getField "thumbnailUrl" data, getField "metadata" data)
          else .error .emptyResponse

/-- An in-flight network call: the issue-order token of its mutation and the
original (untrimmed) prompt passed as the mutation variables. -/
structure Flight : Type where
  token : Nat
  prompt : String
  deriving DecidableEq

/-- Observable hook state: the `['model-history']` query-cache value, the
`selectedId` React state, and the error / pending fields of the mutation the
hook currently tracks. -/
structure HookState : Type where
  history : List Json
  selectedId : Option String
  error : Option GenError
  pending : Bool
  deriving DecidableEq

/-- Whole-system state: hook state, the issue counter, the mutation the hook
observer currently tracks (react-query replaces the tracked mutation on each
`mutate` call), the calls still in flight, and the persisted store value. -/
structure Sys : Type where
  st : HookState
  nextToken : Nat
  current : Option Nat
  inflight : List Flight
  store : StoreRead
  deriving DecidableEq

/-- External events: `issue p` is a `generateModel(p)` call up to its first
suspension point; `resolve tok net id now` is the settling of in-flight call
`tok` with network outcome `net`, where `id` is the fresh `crypto.randomUUID`
value and `now` the `new Date().toISOString()` value drawn by `onSuccess`;
the rest are the synchronous public operations. -/
inductive Event : Type where
  | issue : String → Event
  | resolve : Nat → Option Json → String → String → Event
  | select : String → Event
  | clear : Event
  | resetErr : Event

/-- One transition of the manager, mirroring `useModelGenerator`:

* `issue`: an empty trimmed prompt makes `mutationFn` throw before the
  `axios.post`, so the new (immediately failed) mutation becomes the tracked
  one and no call goes out; otherwise the call is added to the in-flight set
  and the new pending mutation is tracked (`error` reads as `null`).
* `resolve` of a live call: on success react-query runs the hook's
  `onSuccess` for *every* completed mutation — superseded or not — which
  prepends the new entry (capped at 20), persists, and selects the new id;
  the mutation's own status (pending/error) is visible only if it is still
  the tracked mutation.  On failure nothing runs (`onError` is not given)
  and only a still-tracked mutation surfaces its error.
* `select`, `clear`, `resetErr`: the synchronous operations of the hook. -/
def stepSys (sys : Sys) : Event → Sys
  | .issue prompt =>
      if jsTrim prompt = "" then
        { sys with
          nextToken := sys.nextToken + 1
          current := some sys.nextToken
          st := { sys.st with pending := false, error := some .emptyPrompt } }
      else
        { sys with
          nextToken := sys.nextToken + 1
          current := some sys.nextToken
          inflight := sys.inflight ++ [⟨sys.nextToken, prompt⟩]
          st := { sys.st with pending := true, error := none } }
  | .resolve tok net id now =>
      match sys.inflight.find? (fun f => f.token == tok) with
      | none => sys
      | some f =>
          let inflight' := sys.inflight.filter (fun g => g.token != tok)
          match resolveOutcome net with
          | .ok (u, th, md) =>
              let entry := mkEntry id f.prompt u th md now
              let hist' := insertEntry entry sys.st.history
              { sys with
                inflight := inflight'
                store := .parsed (.arr hist')
                st := { history := hist'
                        selectedId := some id
                        pending :=
                          if sys.current = some tok then false
                          else sys.st.pending
                        error :=
                          if sys.current = some tok then none
                          else sys.st.error } }
          | .error e =>
              if sys.current = some tok then
                { sys with
                  inflight := inflight'
                  st := { sys.st with pending := false, error := some e } }
              else { sys with inflight := inflight' }
  | .select id => { sys with st := { sys.st with selectedId := some id } }
  | .clear =>
      { sys with
        store := .parsed (.arr [])
        st := { sys.st with history := [], selectedId := none } }
  | .resetErr =>
      { sys with st := { sys.st with pending := false, error := none } }

/-- A run of the manager: fold the events over the step function. -/
def runSys (sys : Sys) (evs : List Event) : Sys :=
  evs.foldl stepSys sys

/-- Startup state: history is the decoded store (`initialData: readHistory`),
no selection, no tracked mutation, nothing in flight. -/
def initSys (r : StoreRead) : Sys :=
  { st := { history := readHistory r, selectedId := none, error := none,
            pending := false }
    nextToken := 0
    current := none
    inflight := []
    store := r }

/-- The strict comparison `item.id === selectedId` for a non-`null` item:
`selectedId` is a string or `null`; `item.id` is `undefined` (`none`) unless
`item` is an object with an `id` field.  `undefined` strictly equals
neither, `null === null` holds, and two strings compare by value. -/
def idMatches (item : Json) (sel : Option String) : Bool :=
  match getField "id" item, sel with
  | some (.str s), some t => s == t
  | some .null, none => true
  | _, _ => false

/-- The scan `history.find((item) => item.id === selectedId)`.  Reading
`item.id` on a `null` element throws a `TypeError` (`JSON.parse` can put a
literal `null` into a stored array), modelled as `Except.error`; `find`
stops at the first match. -/
def findById : List Json → Option String → Except Unit (Option Json)
  | [], _ => .ok none
  | item :: rest, sel =>
      if item = Json.null then .error ()
      else if idMatches item sel then .ok (some item)
      else findById rest sel

/-- The derived `selectedModel` value:
`history.find((item) => item.id === selectedId) ?? history[0] ?? null`. -/
def selectedModelE (hist : List Json) (sel : Option String) :
    Except Unit (Option Json) :=
  match findById hist sel with
  | .error e => .error e
  | .ok (some x) => .ok (some x)
  | .ok none => .ok hist.head?

/-- No two history elements share an `id` (elements without a usable `id`
field count as sharing `undefined`). -/
def uniqueIds (hist : List Json) : Prop :=
  (hist.map (getField "id")).Nodup

instance (hist : List Json) : Decidable (uniqueIds hist) :=
  inferInstanceAs (Decidable ((hist.map (getField "id")).Nodup))

/-! Concrete scenarios used by the counterexamples and witnesses below. -/

/-- Overlapping calls: A (`"a"`) is issued, B (`"b"`) is issued while A is
still in flight, B's response arrives first, A's arrives last. -/
def evsStale : List Event :=
  [.issue "a", .issue "b",
   .resolve 1 (some (.obj [("url", .str "b.glb")])) "idB" "t1",
   .resolve 0 (some (.obj [("url", .str "a.glb")])) "idA" "t2"]

/-- Overlapping calls where the superseded call A fails in transport while
B is still pending. -/
def evsStaleFail : List Event :=
  [.issue "a", .issue "b", .resolve 0 none "x" "t"]

/-- A single successful generation whose prompt carries surrounding
whitespace. -/
def evsUntrimmed : List Event :=
  [.issue "  biplane wing  ",
   .resolve 0 (some (.obj [("url", .str "a.glb")])) "id1" "t1"]

/-- State with two calls in flight (tokens 0 and 1). -/
def sysTwoCalls : Sys := runSys (initSys .absent) [.issue "a", .issue "b"]

/-- State with a single call in flight (token 0). -/
def sysOneCall : Sys := runSys (initSys .absent) [.issue "a"]

/-- A full 20-element history with pairwise distinct ids. -/
def hist20 : List Json :=
  (List.range 20).map
    (fun i => mkEntry (toString i) "p" (.str "u") none none "t")

/-- A fresh 21st entry. -/
def e21 : Json := mkEntry "fresh" "q" (.str "v") none none "t2"

/-- An entry stored twice in the persisted array. -/
def dupEntry : Json := mkEntry "same" "p" (.str "u") none none "t"

/-- A one-element history for the selection-fallback witness. -/
def histW : List Json := [mkEntry "w1" "p" (.str "u") none none "t"]

/-- A fully populated record for the round-trip witness. -/
def m0 : GeneratedModel :=
  ⟨"i1", "a prompt", "u.glb", some "th.png", some [("k", .str "v")], "2024"⟩

/-! Theorems. -/

/-- C4: a prompt whose trimmed form is empty (including whitespace-only
input) makes `generate` fail with `EmptyPromptError` before any call to the
Generation Client is issued: the in-flight set gains no call, and history,
selection, and the persisted store are all unchanged. -/
theorem c4_empty_prompt_rejected (sys : Sys) (p : String)
    (h : jsTrim p = "") :
    (stepSys sys (.issue p)).st.history = sys.st.history
    ∧ (stepSys sys (.issue p)).st.selectedId = sys.st.selectedId
    ∧ (stepSys sys (.issue p)).store = sys.store
    ∧ (stepSys sys (.issue p)).inflight = sys.inflight
    ∧ (stepSys sys (.issue p)).st.error = some .emptyPrompt := by
  simp [stepSys, h]

/-- Witness for C4 at the whitespace-only prompt of the spec's scenario. -/
theorem c4_empty_prompt_rejected_witness :
    (stepSys (initSys .absent) (.issue "   ")).st.history
        = (initSys .absent).st.history
    ∧ (stepSys (initSys .absent) (.issue "   ")).st.selectedId
        = (initSys .absent).st.selectedId
    ∧ (stepSys (initSys .absent) (.issue "   ")).store = (initSys .absent).store
    ∧ (stepSys (initSys .absent) (.issue "   ")).inflight
        = (initSys .absent).inflight
    ∧ (stepSys (initSys .absent) (.issue "   ")).st.error
        = some .emptyPrompt :=
  c4_empty_prompt_rejected (initSys .absent) "   " (by decide)

/-- C7: reading the store yields the empty history on every input other
than a string parsing to an array — key absent, empty string, unparseable
string, or a parse result of non-array shape — and, being a total function
(the source wraps the read in `try`/`catch`), it never raises. -/
theorem c7_malformed_decodes_empty (r : StoreRead)
    (h : ∀ l, r ≠ .parsed (.arr l)) : readHistory r = [] := by
  cases r with
  | absent => rfl
  | emptyStr => rfl
  | unparseable => rfl
  | parsed j =>
      cases j with
      | arr l => exact absurd rfl (h l)
      | null => rfl
      | bool b => rfl
      | num n => rfl
      | str s => rfl
      | obj fs => rfl

/-- Witness for C7 at an unparseable store value. -/
theorem c7_malformed_decodes_empty_witness :
    readHistory .unparseable = [] :=
  c7_malformed_decodes_empty .unparseable (fun _ hl => nomatch hl)

/-- C10: a stored string parsing to a JSON array is loaded verbatim — no
per-element validation, no truncation, malformed elements and arrays longer
than 20 included — and the startup state exposes exactly that array as the
history. -/
theorem c10_load_unvalidated :
    ∀ l : List Json, readHistory (.parsed (.arr l)) = l
      ∧ (initSys (.parsed (.arr l))).st.history = l :=
  fun _ => ⟨rfl, rfl⟩

/-- Helper: `decodeEntry` is a left inverse of the serialization. -/
theorem decode_toJson (m : GeneratedModel) :
    decodeEntry (GeneratedModel.toJson m) = some m := by
  obtain ⟨i, p, u, th, md, c⟩ := m
  cases th <;> cases md <;> rfl

/-- C6: the codec round-trips losslessly.  Decoding the encoded form of any
history of records returns exactly the records' runtime values (the store
cast back by `JSON.parse` is the identity on them), and the serialization is
injective, so the original history is recovered unchanged; this holds for
every history of well-formed records, in particular those satisfying the
§3 invariants. -/
theorem c6_roundtrip :
    (∀ h : List GeneratedModel,
        readHistory (.parsed (encodeHistory h)) = h.map GeneratedModel.toJson)
    ∧ ∀ a b : GeneratedModel,
        GeneratedModel.toJson a = GeneratedModel.toJson b → a = b := by
  refine ⟨fun _ => rfl, fun a b hab => ?_⟩
  have h1 : decodeEntry (GeneratedModel.toJson a)
      = decodeEntry (GeneratedModel.toJson b) := congrArg decodeEntry hab
  rw [decode_toJson, decode_toJson] at h1
  exact Option.some.inj h1

/-- Witness for C6 at a fully populated one-record history. -/
theorem c6_roundtrip_witness :
    readHistory (.parsed (encodeHistory [m0])) = [GeneratedModel.toJson m0]
    ∧ m0 = m0 :=
  ⟨c6_roundtrip.1 [m0], c6_roundtrip.2 m0 m0 rfl⟩

/-- C1 counterexample: in the concrete interleaving `evsStale` (A issued,
then B issued, B's response first, A's response last) the stale result of A
is not discarded: A's entry is prepended to history — ending up at the head,
in front of B's entry — and A's fresh id becomes the selection, so the
superseded call's success, not only the most recent call's, mutates history
and selection.  (react-query runs the hook's `onSuccess` for every completed
mutation; the source has no staleness token.) -/
theorem c1_stale_result_commits :
    (runSys (initSys .absent) evsStale).st.history =
      [mkEntry "idA" "a" (.str "a.glb") none none "t2",
       mkEntry "idB" "b" (.str "b.glb") none none "t1"]
    ∧ (runSys (initSys .absent) evsStale).st.selectedId = some "idA" :=
  ⟨by decide, by decide⟩

/-- C1 amended: every successful resolution of a live call commits,
superseded or not — its entry is prepended (capped at 20) and its id
selected — irrespective of whether the call is the most recently initiated
one; only the pending/error status is restricted to the currently tracked
call. -/
theorem c1_every_success_commits (sys : Sys) (tok : Nat) (net : Option Json)
    (id now : String) (f : Flight)
    (hf : sys.inflight.find? (fun g => g.token == tok) = some f)
    (u : Json) (th md : Option Json)
    (hok : resolveOutcome net = .ok (u, th, md)) :
    (stepSys sys (.resolve tok net id now)).st.history
        = insertEntry (mkEntry id f.prompt u th md now) sys.st.history
    ∧ (stepSys sys (.resolve tok net id now)).st.selectedId = some id := by
  simp [stepSys, hf, hok]

/-- Witness for C1's amended statement: the stale call of `sysTwoCalls`
resolves successfully and commits. -/
theorem c1_every_success_commits_witness :
    (stepSys sysTwoCalls
        (.resolve 0 (some (.obj [("url", .str "a.glb")])) "idA" "t2")).st.history
        = insertEntry (mkEntry "idA" "a" (.str "a.glb") none none "t2")
            sysTwoCalls.st.history
    ∧ (stepSys sysTwoCalls
        (.resolve 0 (some (.obj [("url", .str "a.glb")])) "idA" "t2")).st.selectedId
        = some "idA" :=
  c1_every_success_commits sysTwoCalls 0 (some (.obj [("url", .str "a.glb")]))
    "idA" "t2" ⟨0, "a"⟩ (by decide) (.str "a.glb") none none rfl

/-- C5 counterexample: in `evsStaleFail` call A fails in transport after
being superseded by the still-pending call B; A's failure is not reflected —
the error field stays `null` — so it is not true that every failing generate
call makes the error field non-null.  (History is indeed unchanged.) -/
theorem c5_stale_failure_unreported :
    (runSys (initSys .absent) evsStaleFail).st.error = none
    ∧ (runSys (initSys .absent) evsStaleFail).st.history = [] :=
  ⟨by decide, by decide⟩

/-- C5 amended: every failing call — transport failure or missing/empty
`url` — leaves history, selection and the persisted store exactly as they
were, and the error field becomes non-null (the mutation's error) exactly
when the failing call is the most recently initiated one; a superseded
call's failure is silently dropped. -/
theorem c5_failure_leaves_state (sys : Sys) (tok : Nat) (net : Option Json)
    (id now : String) (f : Flight) (e : GenError)
    (hf : sys.inflight.find? (fun g => g.token == tok) = some f)
    (he : resolveOutcome net = .error e) :
    (stepSys sys (.resolve tok net id now)).st.history = sys.st.history
    ∧ (stepSys sys (.resolve tok net id now)).st.selectedId = sys.st.selectedId
    ∧ (stepSys sys (.resolve tok net id now)).store = sys.store
    ∧ (sys.current = some tok →
        (stepSys sys (.resolve tok net id now)).st.error = some e) := by
  simp only [stepSys, hf, he]
  split <;> simp_all

/-- Witness for C5's amended statement: the sole call of `sysOneCall` gets a
body without `url` (the spec's `{}` scenario) and fails with
`EmptyResponseError`, which is reflected since the call is current. -/
theorem c5_failure_leaves_state_witness :
    (stepSys sysOneCall (.resolve 0 (some (.obj [])) "x" "t")).st.history
        = sysOneCall.st.history
    ∧ (stepSys sysOneCall (.resolve 0 (some (.obj [])) "x" "t")).st.selectedId
        = sysOneCall.st.selectedId
    ∧ (stepSys sysOneCall (.resolve 0 (some (.obj [])) "x" "t")).store
        = sysOneCall.store
    ∧ (stepSys sysOneCall (.resolve 0 (some (.obj [])) "x" "t")).st.error
        = some .emptyResponse := by
  have h := c5_failure_leaves_state sysOneCall 0 (some (.obj [])) "x" "t"
    ⟨0, "a"⟩ .emptyResponse (by decide) rfl
  exact ⟨h.1, h.2.1, h.2.2.1, h.2.2.2 (by decide)⟩

/-- C2 divergence, at the failing input `generate("  biplane wing  ")` with
response `{url: "a.glb"}`: the successful generation prepends an entry whose
`url` comes from the response, but whose `prompt` field is the raw mutation
variables `"  biplane wing  "` — not the trimmed `"biplane wing"` the claim
requires (the trimmed copy `mutationFn` returns in `result.prompt` is
discarded by `onSuccess`, which shadows it with the untrimmed variables). -/
theorem c2_prompt_stored_untrimmed :
    (runSys (initSys .absent) evsUntrimmed).st.history =
      [mkEntry "id1" "  biplane wing  " (.str "a.glb") none none "t1"]
    ∧ getField "prompt"
        (mkEntry "id1" "  biplane wing  " (.str "a.glb") none none "t1")
        = some (.str "  biplane wing  ")
    ∧ jsTrim "  biplane wing  " = "biplane wing"
    ∧ "  biplane wing  " ≠ "biplane wing" :=
  ⟨by decide, by decide, by decide, by decide⟩

/-- Helper: no single transition grows the history beyond 20 elements. -/
theorem step_history_len (sys : Sys) (ev : Event)
    (h : sys.st.history.length ≤ 20) :
    (stepSys sys ev).st.history.length ≤ 20 := by
  cases ev with
  | issue p =>
      simp only [stepSys]
      split <;> exact h
  | resolve tok net id now =>
      simp only [stepSys]
      split
      · exact h
      · split
        · simp [insertEntry, List.length_take]
        · split <;> exact h
  | select id => exact h
  | clear => simp [stepSys]
  | resetErr => exact h

/-- Helper: the 20-element bound is an invariant of whole runs. -/
theorem runSys_history_len (evs : List Event) (sys : Sys)
    (h : sys.st.history.length ≤ 20) :
    (runSys sys evs).st.history.length ≤ 20 := by
  induction evs generalizing sys with
  | nil => exact h
  | cons e rest ih => exact ih (stepSys sys e) (step_history_len sys e h)

/-- C3: starting from any state within the cap (in particular the empty
startup history), no sequence of operations ever pushes the history past 20
elements; and a successful insertion into a full 20-element history with
pairwise-distinct ids keeps the length at 20 and evicts the oldest (tail)
record, which is absent afterwards. -/
theorem c3_cap_and_eviction :
    (∀ sys evs, sys.st.history.length ≤ 20 →
        (runSys sys evs).st.history.length ≤ 20)
    ∧ ∀ entry hist, hist.length = 20 → uniqueIds (entry :: hist) →
        (insertEntry entry hist).length = 20
        ∧ ∀ last, hist.getLast? = some last →
            last ∉ insertEntry entry hist := by
  constructor
  · intro sys evs h
    exact runSys_history_len evs sys h
  · intro entry hist hlen huniq
    constructor
    · simp [insertEntry, List.length_take, hlen]
    · intro last hlast hmem
      obtain ⟨front, rfl⟩ := List.getLast?_eq_some_iff.mp hlast
      have hflen : (entry :: front).length = 20 := by
        simp only [List.length_append, List.length_singleton] at hlen
        simp; omega
      have htake : insertEntry entry (front ++ [last]) = entry :: front := by
        calc insertEntry entry (front ++ [last])
            = ((entry :: front) ++ [last]).take ((entry :: front).length) := by
              rw [hflen]; rfl
          _ = entry :: front := List.take_left _ _
      rw [htake] at hmem
      have huniq' : ((entry :: front).map (getField "id")
          ++ [getField "id" last]).Nodup := by
        simpa [uniqueIds, List.map_append] using huniq
      rw [List.nodup_append] at huniq'
      exact huniq'.2.2 (List.mem_map_of_mem _ hmem) (List.mem_singleton.mpr rfl)

/-- Witness for C3: a run bound, plus insertion of a fresh entry into the
full distinct-id history `hist20`, whose oldest record (id `"19"`) is then
absent. -/
theorem c3_cap_and_eviction_witness :
    (runSys (initSys .absent) []).st.history.length ≤ 20
    ∧ (insertEntry e21 hist20).length = 20
    ∧ mkEntry "19" "p" (.str "u") none none "t" ∉ insertEntry e21 hist20 := by
  refine ⟨c3_cap_and_eviction.1 (initSys .absent) [] (by decide), ?_, ?_⟩
  · exact (c3_cap_and_eviction.2 e21 hist20 (by decide) (by decide)).1
  · exact (c3_cap_and_eviction.2 e21 hist20 (by decide) (by decide)).2
      (mkEntry "19" "p" (.str "u") none none "t") (by decide)

/-- Helper: on a history without `null` elements the scan never throws and
agrees with `List.find?`. -/
theorem findById_no_null (hist : List Json) (sel : Option String)
    (h : Json.null ∉ hist) :
    findById hist sel = .ok (hist.find? (fun j => idMatches j sel)) := by
  induction hist with
  | nil => rfl
  | cons item rest ih =>
      have hitem : ¬ item = Json.null :=
        fun he => h (he ▸ List.mem_cons_self item rest)
      have hrest : Json.null ∉ rest := fun hm => h (List.mem_cons_of_mem _ hm)
      by_cases hm : idMatches item sel
      · simp [findById, hitem, hm, List.find?_cons_of_pos _ hm]
      · simp [findById, hitem, hm, List.find?_cons_of_neg _ hm, ih hrest]

/-- C8: over any history without `null` elements, `selectedModel` is the
first element whose id strictly equals the selection when one exists,
otherwise the head of the history, otherwise none; after `clearHistory` the
selection is cleared and `selectedModel` is none, and a selected id matching
no element falls back to the head (the `find? = none` case). -/
theorem c8_selection_projection (hist : List Json) (sel : Option String)
    (hnn : Json.null ∉ hist) :
    (∀ x, hist.find? (fun j => idMatches j sel) = some x →
        selectedModelE hist sel = .ok (some x))
    ∧ (hist.find? (fun j => idMatches j sel) = none →
        selectedModelE hist sel = .ok hist.head?)
    ∧ (hist = [] → selectedModelE hist sel = .ok none)
    ∧ ∀ sys : Sys,
        (stepSys sys .clear).st.selectedId = none
        ∧ selectedModelE (stepSys sys .clear).st.history
            (stepSys sys .clear).st.selectedId = .ok none := by
  refine ⟨?_, ?_, ?_, fun sys => ⟨rfl, rfl⟩⟩
  · intro x hx
    simp [selectedModelE, findById_no_null hist sel hnn, hx]
  · intro hx
    simp [selectedModelE, findById_no_null hist sel hnn, hx]
  · rintro rfl; rfl

/-- Witness for C8: selecting the nonexistent id `"zzz"` in the one-element
history `histW` falls back to the head, and clearing resets the selection. -/
theorem c8_selection_projection_witness :
    selectedModelE histW (some "zzz") = .ok histW.head?
    ∧ (stepSys (initSys .absent) .clear).st.selectedId = none := by
  have h := c8_selection_projection histW (some "zzz") (by decide)
  exact ⟨h.2.1 (by decide), (h.2.2.2 (initSys .absent)).1⟩

/-- C9 counterexample: the startup load is a reachable "store-load
operation", and a persisted array holding the same record twice is loaded
verbatim, so the resulting history has two elements sharing the id
`"same"` — id uniqueness is not an invariant of all reachable histories. -/
theorem c9_duplicate_ids_loaded :
    readHistory (.parsed (.arr [dupEntry, dupEntry])) = [dupEntry, dupEntry]
    ∧ ¬ uniqueIds ((initSys (.parsed (.arr [dupEntry, dupEntry]))).st.history) :=
  ⟨rfl, by decide⟩

/-- C9 amended: uniqueness is preserved by the operations themselves — a
successful insertion whose fresh id does not already occur (the
`crypto.randomUUID` assumption) keeps ids pairwise distinct, as trivially do
`clearHistory` and the empty startup history — but it is not enforced on
store-load, which exposes duplicated ids verbatim until overwritten. -/
theorem c9_insert_preserves_unique (entry : Json) (hist : List Json)
    (h1 : uniqueIds hist)
    (h2 : getField "id" entry ∉ hist.map (getField "id")) :
    uniqueIds (insertEntry entry hist) := by
  have hcons : ((entry :: hist).map (getField "id")).Nodup :=
    List.nodup_cons.mpr ⟨h2, h1⟩
  exact List.Nodup.sublist
    (List.Sublist.map _ (List.take_sublist 20 (entry :: hist))) hcons

/-- Witness for C9's amended statement: inserting the fresh entry `e21` into
the distinct-id history `hist20` keeps ids pairwise distinct. -/
theorem c9_insert_preserves_unique_witness :
    uniqueIds (insertEntry e21 hist20) :=
  c9_insert_preserves_unique e21 hist20 (by decide) (by decide)

end SketchToSky
